import Mathlib

/-!
Shallow embedding of the job-extraction pipeline of
`src/extract/job_extractor.py` (avature-scraper), together with theorems
settling the specification claims about it.

Conventions of the embedding:
* Python strings are Lean `String`s (ASCII inputs are the domain of interest).
* Python exceptions are `Except Unit`; `urlparse` models CPython
  `urllib.parse.urlparse`, including the `ValueError` it raises on an
  authority containing an unbalanced square bracket.
* Network and HTML/XML parsing are modelled as explicit environments: a
  function from URL to response.  A BeautifulSoup document is abstracted as
  the map from a CSS selector to the (cleaned text of the) first matching
  element, which is exactly the interface the source code consumes.
* Python dicts are association lists with first-key lookup and in-place
  update semantics (`PyDict`).
-/

/-! ## Python string primitives -/

/-- Python `sub in s` (substring containment). -/
def strContains (s sub : String) : Bool :=
  s.toList.tails.any (fun t => sub.toList.isPrefixOf t)

/-- Python `s.startswith(pre)`. -/
def pyStartsWith (s pre : String) : Bool :=
  pre.toList.isPrefixOf s.toList

/-- Python `s.endswith(suf)`. -/
def pyEndsWith (s suf : String) : Bool :=
  suf.toList.reverse.isPrefixOf s.toList.reverse

/-- Python `s.lower()` (ASCII). -/
def pyLower (s : String) : String :=
  String.mk (s.toList.map Char.toLower)

/-- Python `s.rstrip("/")`. -/
def pyRstripSlash (s : String) : String :=
  String.mk ((s.toList.reverse.dropWhile (· == '/')).reverse)

/-- Python whitespace (for `str.strip()` with no argument). -/
def isPySpace (c : Char) : Bool :=
  c == ' ' || c == '\t' || c == '\n' || c == '\r' || c == '\x0b' || c == '\x0c'

/-- Python `s.strip()`. -/
def pyStrip (s : String) : String :=
  String.mk (((s.toList.dropWhile isPySpace).reverse.dropWhile isPySpace).reverse)

/-- Python `s[:n]`. -/
def pyTake (n : Nat) (s : String) : String :=
  String.mk (s.toList.take n)

/-- Python `s.split(sep)` for a one-character separator, on char lists. -/
def splitOnChar (sep : Char) : List Char → List (List Char)
  | [] => [[]]
  | c :: rest =>
    let r := splitOnChar sep rest
    if c = sep then [] :: r
    else
      match r with
      | h :: t => (c :: h) :: t
      | [] => [[c]]

/-- The repeated idiom `(p.path or "").rstrip("/").lower()` of the source. -/
def normPath (s : String) : String :=
  pyLower (pyRstripSlash s)

/-- Nonempty `/`-separated segments of a path, as in
`[x for x in path.split("/") if x]`. -/
def segCount (path : String) : Nat :=
  ((splitOnChar '/' path.toList).filter (· ≠ [])).length

/-! ## urlparse (CPython `urllib.parse`)

`urlsplit` strips C0-control/space characters, removes tab/CR/LF, splits off
scheme, authority, fragment and query, and raises `ValueError` when the
authority contains `[` without `]` or vice versa.  `urlparse` additionally
splits params off the path.  (The non-ASCII NFKC check and the bracketed-host
validation of newer CPython need non-ASCII input resp. both brackets present;
they are outside this model's domain of interest.) -/

structure UrlParts where
  scheme : String
  netloc : String
  path : String
  params : String
  query : String
  fragment : String
deriving DecidableEq

def isC0OrSpace (c : Char) : Bool := c.toNat ≤ 32

/-- The preprocessing CPython applies to the raw URL string. -/
def preprocessUrl (l : List Char) : List Char :=
  (((l.dropWhile isC0OrSpace).reverse.dropWhile isC0OrSpace).reverse).filter
    (fun c => !(c == '\t') && !(c == '\r') && !(c == '\n'))

def isSchemeChar (c : Char) : Bool :=
  c.isAlpha || c.isDigit || c == '+' || c == '-' || c == '.'

/-- CPython scheme splitting: `i = url.find(':')`, accepted when `i > 0`,
`url[0]` is an ASCII letter and all of `url[:i]` are scheme characters. -/
def splitScheme (l : List Char) : List Char × List Char :=
  match l.findIdx? (· == ':') with
  | some i =>
    if 0 < i ∧ (match l.head? with | some c => c.isAlpha | none => false) = true
        ∧ (l.take i).all isSchemeChar = true then
      ((l.take i).map Char.toLower, l.drop (i + 1))
    else ([], l)
  | none => ([], l)

/-- CPython `_splitnetloc`: when the rest starts with `//`, the authority runs
to the first of `/`, `?`, `#`. -/
def splitNetloc (l : List Char) : List Char × List Char :=
  if l.take 2 = ['/', '/'] then
    let n := (l.drop 2).takeWhile (fun c => !(c == '/') && !(c == '?') && !(c == '#'))
    (n, l.drop (2 + n.length))
  else ([], l)

/-- Split at the first occurrence of `sep`; second component is `[]` when
`sep` is absent (CPython only splits when the separator occurs, but the
absent case also yields an empty fragment/query). -/
def splitAtChar (sep : Char) (l : List Char) : List Char × List Char :=
  match l.findIdx? (· == sep) with
  | some i => (l.take i, l.drop (i + 1))
  | none => (l, [])

/-- The condition under which CPython raises `ValueError("Invalid IPv6 URL")`. -/
def badBrackets (n : List Char) : Prop :=
  ('[' ∈ n ∧ ']' ∉ n) ∨ (']' ∈ n ∧ '[' ∉ n)

instance (n : List Char) : Decidable (badBrackets n) := by
  unfold badBrackets; infer_instance

/-- The scheme piece and the remainder after scheme removal. -/
def schemeRest (url : String) : List Char × List Char :=
  splitScheme (preprocessUrl url.toList)

/-- The authority piece and the remainder after authority removal. -/
def netlocRest (url : String) : List Char × List Char :=
  splitNetloc (schemeRest url).2

/-- The total part of `urlsplit`, applied when no `ValueError` is raised. -/
def urlsplitOk (url : String) : UrlParts :=
  let sr := schemeRest url
  let nr := splitNetloc sr.2
  let fr := splitAtChar '#' nr.2
  let qr := splitAtChar '?' fr.1
  ⟨String.mk sr.1, String.mk nr.1, String.mk qr.1, "", String.mk qr.2, String.mk fr.2⟩

/-- CPython `urlsplit`, with its `ValueError` as `Except.error ()`. -/
def urlsplit (url : String) : Except Unit UrlParts :=
  if badBrackets (netlocRest url).1 then .error ()
  else .ok (urlsplitOk url)

/-- Index of the last occurrence of `sep` (CPython `rfind`). -/
def lastIdxOf (sep : Char) (l : List Char) : Option Nat :=
  match l.reverse.findIdx? (· == sep) with
  | some j => some (l.length - 1 - j)
  | none => none

/-- First occurrence of `sep` at index ≥ `start` (CPython `find(sep, start)`). -/
def findFrom (sep : Char) (start : Nat) (l : List Char) : Option Nat :=
  match (l.drop start).findIdx? (· == sep) with
  | some j => some (start + j)
  | none => none

/-- CPython `_splitparams`. -/
def splitparams (path : String) : String × String :=
  let l := path.toList
  match lastIdxOf '/' l with
  | some k =>
    match findFrom ';' k l with
    | some i => (String.mk (l.take i), String.mk (l.drop (i + 1)))
    | none => (path, "")
  | none =>
    match l.findIdx? (· == ';') with
    | some i => (String.mk (l.take i), String.mk (l.drop (i + 1)))
    | none => (path, "")

/-- CPython `urlparse`. -/
def urlparse (url : String) : Except Unit UrlParts :=
  match urlsplit url with
  | .error e => .error e
  | .ok p =>
    let pp := splitparams p.path
    .ok { p with path := pp.1, params := pp.2 }

/-! ## URL role classifiers (`is_likely_career_hub`, `is_likely_job_page`,
`is_listing_page`) -/

/-- Body of `is_likely_career_hub` after `urlparse` succeeded. -/
def hub_core (p : UrlParts) : Bool :=
  let path := normPath p.path
  if path = "" ∨ path = "/" ∨ path = "/careers" ∨ path = "/jobs" then true
  else if strContains path "/careers/" = true ∨ strContains path "/jobs/" = true then
    decide (segCount path ≤ 2)
  else false

/-- `is_likely_career_hub(url)`; raises whatever `urlparse` raises. -/
def is_likely_career_hub (url : String) : Except Unit Bool :=
  (urlparse url).map hub_core

/-- Body of `is_likely_job_page` after `urlparse` succeeded. -/
def job_page_core (p : UrlParts) : Bool :=
  let path := normPath p.path
  if path = "" ∨ path = "/" then false
  else if strContains path "/blogs/" = true ∨ strContains path "/blog/" = true then true
  else decide (2 ≤ segCount path)

/-- `is_likely_job_page(url)`. -/
def is_likely_job_page (url : String) : Except Unit Bool :=
  (urlparse url).map job_page_core

/-- Body of `is_listing_page` after `urlparse` succeeded. -/
def listing_core (p : UrlParts) : Bool :=
  let path := normPath p.path
  if path = "" then false
  else if strContains path "searchjobs" = true ∧ ¬ strContains path "/jobdetail" = true then
    true
  else if segCount path ≤ 2 ∧ (strContains path "careers" = true ∨ strContains path "jobs" = true) then
    true
  else pyEndsWith path "/careers" || pyEndsWith path "/jobs"

/-- `is_listing_page(url)`. -/
def is_listing_page (url : String) : Except Unit Bool :=
  (urlparse url).map listing_core

/-! ## Job-posting admission filter (`is_likely_job_posting`) -/

/-- `RSS_NON_JOB_PATH_PATTERNS` of the source. -/
def RSS_NON_JOB_PATH_PATTERNS : List String :=
  ["/blogs/", "/blog/", "avatureupfront", "hr-trends", "test-cookies"]

/-- Body of `is_likely_job_posting` after `urlparse` succeeded.  The nested
`if`s of the source under the marketing-host test are flattened into
conjunctions; the fall-through structure is preserved. -/
def job_posting_core (p : UrlParts) (job_title : String) : Bool :=
  let path := pyLower p.path
  let netloc := pyLower p.netloc
  let title := pyLower job_title
  if (netloc = "www.avature.net" ∨ netloc = "avature.net") ∧
      (strContains path "/blogs/" = true ∨ strContains path "/blog/" = true ∨
       strContains path "avatureupfront" = true ∨ strContains path "hr-trends" = true) then
    false
  else if (netloc = "www.avature.net" ∨ netloc = "avature.net") ∧
      (¬ strContains path "/careers/" = true ∧ ¬ strContains path "/jobs/" = true ∧
       ¬ strContains path "searchjobs" = true) then
    false
  else if RSS_NON_JOB_PATH_PATTERNS.any
      (fun pat => strContains path pat || strContains title pat) then
    false
  else if strContains netloc ".avature.net" = true ∧
      netloc ≠ "www.avature.net" ∧ netloc ≠ "avature.net" ∧
      (strContains path "/careers" = true ∨ strContains path "/jobs" = true ∨
       strContains path "searchjobs" = true ∨ strContains path "careers" = true ∨
       strContains path "jobs" = true) then
    true
  else if strContains path "/careers/" = true ∨ strContains path "/jobs/" = true ∨
      strContains path "searchjobs" = true then
    true
  else if pyEndsWith path "/careers" = true ∨ pyEndsWith path "/jobs" = true ∨
      strContains path "/careers" = true ∨ strContains path "/jobs" = true then
    true
  else false

/-- `is_likely_job_posting(application_url, job_title, source_feed)`.  The
`source_feed` argument is accepted and, as in the source, never consulted. -/
def is_likely_job_posting (application_url job_title source_feed : String) :
    Except Unit Bool :=
  if application_url = "" then .ok false
  else (urlparse application_url).map (fun p => job_posting_core p job_title)

/-! ## JobRecord data model, dedup corpus, and admission (`add_job`) -/

/-- Python dict of string keys to string-or-None values (insertion order,
first-match lookup). -/
abbrev PyDict := List (String × Option String)

/-- Python `d.get(k)` / key membership: the value stored under `k`, if any. -/
def pyLookup (k : String) : PyDict → Option (Option String)
  | [] => none
  | kv :: rest => if kv.1 = k then some kv.2 else pyLookup k rest

/-- Python `{**old, **new}`: keys of `old` keep their position, with values
overridden by `new` on collision; keys only in `new` are appended. -/
def dictUpdate (old new : PyDict) : PyDict :=
  old.map (fun kv => match pyLookup kv.1 new with | some v => (kv.1, v) | none => kv) ++
  new.filter (fun kv => (pyLookup kv.1 old).isNone)

/-- Python `d[k] = v`: update in place when present, else append. -/
def dictSet (d : PyDict) (k : String) (v : Option String) : PyDict :=
  if (pyLookup k d).isSome then d.map (fun kv => if kv.1 = k then (k, v) else kv)
  else d ++ [(k, v)]

/-- A job dict as built by the extractors.  `extracted_at` (a wall-clock
timestamp set once at insertion in `add_job`) is I/O and is omitted. -/
structure Job where
  job_title : String
  job_description : String
  application_url : String
  metadata : PyDict
  source_site : String
  source_url : String
deriving DecidableEq

/-- The dedup identity `(source_site, application_url)`. -/
def jobKey (j : Job) : String × String :=
  (j.source_site, j.application_url)

/-- The mutable corpus of `run_extraction`: `all_jobs` and `seen_keys`. -/
structure ExtractState where
  all_jobs : List Job
  seen_keys : List (String × String)
deriving DecidableEq

/-- The key-guarded insertion at the end of `add_job`. -/
def add_job_keyed (st : ExtractState) (job : Job) : ExtractState :=
  if jobKey job ∈ st.seen_keys then st
  else { all_jobs := st.all_jobs ++ [job], seen_keys := st.seen_keys ++ [jobKey job] }

/-- `add_job(job)` of `run_extraction`: blog-URL filter, admission filter with
the career-subdomain exemption, then insert-if-unseen.  Note the substring
tests of the first guard run on the raw (uncased, full) application URL, as in
the source. -/
def add_job (st : ExtractState) (job : Job) : Except Unit ExtractState :=
  if job.application_url ≠ "" ∧
      (strContains job.application_url "/blogs/" = true ∨
       strContains job.application_url "/blog/" = true) then
    .ok st
  else
    match is_likely_job_posting job.application_url job.job_title job.source_url with
    | .error e => .error e
    | .ok true => .ok (add_job_keyed st job)
    | .ok false =>
      match urlparse job.application_url with
      | .error e => .error e
      | .ok purl =>
        if pyLower purl.netloc = "www.avature.net" ∨ pyLower purl.netloc = "avature.net" then
          .ok st
        else .ok (add_job_keyed st job)

/-- The in-place merge of the RSS-enrichment phase: description replaced only
when the new one is nonempty and strictly longer; metadata dict-unioned with
the new values winning; nothing else changes. -/
def merge_into (existing job : Job) : Job :=
  { existing with
    job_description :=
      if job.job_description ≠ "" ∧
          existing.job_description.length < job.job_description.length then
        job.job_description
      else existing.job_description,
    metadata :=
      if job.metadata ≠ [] then dictUpdate existing.metadata job.metadata
      else existing.metadata }

/-- Replace the first record with the given key (the `for ... break` scan of
the enrichment loop). -/
def update_first (key : String × String) (job : Job) : List Job → List Job
  | [] => []
  | e :: rest =>
    if jobKey e = key then merge_into e job :: rest
    else e :: update_first key job rest

/-- The per-URL body of the enrichment loop of `run_extraction` (step 3),
given the record `job` re-extracted from a job's own page. -/
def enrich_with (st : ExtractState) (job : Job) : Except Unit ExtractState :=
  if job.job_description ≠ "" ∨ job.metadata ≠ [] then
    if jobKey job ∈ st.seen_keys then
      .ok { st with all_jobs := update_first (jobKey job) job st.all_jobs }
    else add_job st job
  else .ok st

/-- Corpus well-formedness: identities are unique in `all_jobs` and every
stored identity is registered in `seen_keys`. -/
def StateInv (st : ExtractState) : Prop :=
  (st.all_jobs.map jobKey).Nodup ∧ ∀ j ∈ st.all_jobs, jobKey j ∈ st.seen_keys

/-! ## urljoin (restricted model)

`urllib.parse.urljoin` restricted to the shapes this code produces: absolute
URLs, scheme-relative `//…`, absolute paths under the base origin, and a naive
relative append (no dot-segment normalisation, which no call site exercises). -/

/-- Base path up to and including the last `/` (for relative joins). -/
def dirPath (path : String) : String :=
  match lastIdxOf '/' path.toList with
  | some k => String.mk (path.toList.take (k + 1))
  | none => "/"

/-- Restricted `urljoin(base, url)`. -/
def urljoin (base url : String) : String :=
  if url = "" then base
  else if strContains url "://" = true then url
  else if pyStartsWith url "//" = true then
    match urlparse base with
    | .ok p => p.scheme ++ ":" ++ url
    | .error _ => url
  else if pyStartsWith url "/" = true then
    match urlparse base with
    | .ok p => p.scheme ++ "://" ++ p.netloc ++ url
    | .error _ => url
  else
    match urlparse base with
    | .ok p => p.scheme ++ "://" ++ p.netloc ++ dirPath p.path ++ url
    | .error _ => url

/-! ## RSS feed fetching (`fetch_rss_jobs`)

The HTTP session and `xml.etree` are modelled as an environment mapping each
candidate feed URL to: a network error (any `requests` exception), or a
response with a status code and a body that either fails XML parsing
(`ET.ParseError`) or is a well-formed feed.  A well-formed feed is abstracted
as its list of `<item>`s, each reduced to the five strings the source pulls
out of it via `find`/`_text` (title, link, description, pubDate, guid). -/

structure FeedItem where
  title : String
  link : String
  description : String
  pubDate : String
  guid : String
deriving DecidableEq

inductive XmlBody where
  | malformed
  | feed (items : List FeedItem)
deriving DecidableEq

inductive RssResp where
  | netError
  | resp (status : Nat) (body : XmlBody)
deriving DecidableEq

/-- The network as seen by `fetch_rss_jobs`. -/
abbrev RssEnv := String → RssResp

/-- The fixed candidate feed paths, in source order. -/
def RSS_PATHS : List String :=
  ["/rss", "/careers/rss", "/jobs/rss", "/feed", "/careers/feed", "/jobs/feed"]

/-- Per-item processing of the feed loop: the empty-title-and-link discard,
the guid-as-link fallback, the admission filter (whose exception escapes to
the per-path handler), and the job dict construction. -/
def item_to_job (scheme netloc feedUrl : String) (it : FeedItem) :
    Except Unit (Option Job) :=
  if it.title = "" ∧ it.link = "" then .ok none
  else
    let link :=
      if it.link = "" ∧ it.guid ≠ "" ∧
          (pyStartsWith it.guid "http" = true ∨ pyStartsWith it.guid "//" = true) then
        if pyStartsWith it.guid "http" = true then it.guid else scheme ++ ":" ++ it.guid
      else it.link
    if link = "" then .ok none
    else
      match is_likely_job_posting link it.title feedUrl with
      | .error e => .error e
      | .ok false => .ok none
      | .ok true =>
        .ok (some
          { job_title := if it.title = "" then "Untitled" else it.title,
            job_description := it.description,
            application_url := link,
            metadata :=
              [("date_posted", if it.pubDate = "" then none else some it.pubDate),
               ("job_id", if it.guid = "" then none else some it.guid),
               ("source_feed", some feedUrl)],
            source_site := netloc,
            source_url := feedUrl })

/-- The item loop over one parsed feed.  `jobs` accumulates appended records;
the Bool records whether an exception aborted the loop (caught by the
per-path `except`, with the records appended so far kept). -/
def process_items (scheme netloc feedUrl : String) (jobs : List Job) :
    List FeedItem → List Job × Bool
  | [] => (jobs, false)
  | it :: rest =>
    match item_to_job scheme netloc feedUrl it with
    | .error _ => (jobs, true)
    | .ok none => process_items scheme netloc feedUrl jobs rest
    | .ok (some j) => process_items scheme netloc feedUrl (jobs ++ [j]) rest

/-- The path loop of `fetch_rss_jobs`: skip on network error, non-200 status
or parse failure; after a parsed feed, `if jobs: break` — the loop stops only
when the accumulated job list is nonempty and no exception occurred. -/
def rss_loop (env : RssEnv) (scheme netloc origin : String) :
    List String → List Job → List Job
  | [], jobs => jobs
  | path :: rest, jobs =>
    match env (urljoin origin path) with
    | .netError => rss_loop env scheme netloc origin rest jobs
    | .resp status body =>
      if status ≠ 200 then rss_loop env scheme netloc origin rest jobs
      else
        match body with
        | .malformed => rss_loop env scheme netloc origin rest jobs
        | .feed items =>
          let pr := process_items scheme netloc (urljoin origin path) jobs items
          if pr.2 then rss_loop env scheme netloc origin rest pr.1
          else if pr.1 ≠ [] then pr.1
          else rss_loop env scheme netloc origin rest pr.1

/-- `fetch_rss_jobs(session, base_url)`.  The initial `urlparse(base_url)` is
outside any `try` in the source, so its exception escapes. -/
def fetch_rss_jobs (env : RssEnv) (base_url : String) : Except Unit (List Job) :=
  match urlparse base_url with
  | .error e => .error e
  | .ok parsed =>
    .ok (rss_loop env parsed.scheme parsed.netloc
          (parsed.scheme ++ "://" ++ parsed.netloc) RSS_PATHS [])

/-! ## HTML page extractor (`extract_job_from_html`)

The fetched-and-parsed page is abstracted as the interface BeautifulSoup
offers the source: `selOne` maps a CSS selector to the first matching element
(its cleaned text, `href` attribute, and stringified `class` attribute),
`titleAttr` is `soup.title.string`, `bodyEl` is `soup.find("body")`. -/

structure Elem where
  text : String
  href : Option String
  classStr : String
deriving DecidableEq

structure Page where
  selOne : String → Option Elem
  titleAttr : Option String
  bodyEl : Option Elem

/-- The fetch layer for pages: `none` models a non-200 status or any
exception inside the `try` around `session.get`/BeautifulSoup — both return
`None` in the source. -/
abbrev HtmlEnv := String → Option Page

def TITLE_SELECTORS : List String :=
  ["h1", ".job-title", ".position-title", "[data-job-title]", ".job-header h1", ".page-title"]

/-- Title chain: first matching selector wins (even with empty text, the
loop breaks). -/
def title_from_sels (page : Page) : List String → String
  | [] => ""
  | sel :: rest =>
    match page.selOne sel with
    | some el => el.text
    | none => title_from_sels page rest

/-- Title with the `<title>`-tag fallback. -/
def extract_title (page : Page) : String :=
  let t := title_from_sels page TITLE_SELECTORS
  if t = "" then
    match page.titleAttr with
    | some s => pyStrip s
    | none => ""
  else t

def DESC_SELECTORS : List String :=
  [".job-description", ".job-description .content", ".description", ".job-details",
   "article", ".job-content", ".position-description", "[data-job-description]",
   "main .content", "main", ".content"]

/-- Description chain: each matching selector overwrites the candidate; the
loop breaks only when the text exceeds 100 characters. -/
def desc_from_sels (page : Page) : List String → String → String
  | [], acc => acc
  | sel :: rest, acc =>
    match page.selOne sel with
    | none => desc_from_sels page rest acc
    | some el => if 100 < el.text.length then el.text else desc_from_sels page rest el.text

/-- The body-text fallback, truncated to 15000 characters. -/
def bodyFallback (page : Page) : String :=
  match page.bodyEl with
  | some b => pyTake 15000 b.text
  | none => ""

/-- Description with the body fallback; the fallback fires only when the
candidate left by the selector loop is empty. -/
def extract_description (page : Page) : String :=
  let d := desc_from_sels page DESC_SELECTORS ""
  if d = "" then bodyFallback page else d

def APPLY_SELECTORS : List String :=
  ["a[href*=\"apply\"]", "a[href*=\"Apply\"]", "button a[href^=\"http\"]",
   ".apply-button a", ".apply-btn a", "a.btn-apply[href]", "[data-apply-url]"]

/-- Application-URL chain: breaks on the first matching element carrying a
truthy `href`; defaults to the page URL. -/
def app_url_from_sels (page : Page) (url : String) : List String → String
  | [] => url
  | sel :: rest =>
    match page.selOne sel with
    | none => app_url_from_sels page url rest
    | some el =>
      match el.href with
      | some href => if href ≠ "" then urljoin url href else app_url_from_sels page url rest
      | none => app_url_from_sels page url rest

def META_SELECTORS : List String :=
  [".location", ".job-location", "[data-location]", ".location-value",
   ".posted-date", ".date-posted"]

/-- Metadata chain for location and posted date. -/
def meta_from_sels (page : Page) : List String → PyDict → PyDict
  | [], md => md
  | sel :: rest, md =>
    match page.selOne sel with
    | none => meta_from_sels page rest md
    | some el =>
      let md :=
        if strContains (pyLower sel) "location" = true ∨
            strContains el.classStr "location" = true then
          dictSet md "location" (some el.text)
        else if strContains (pyLower sel) "date" = true ∨
            strContains (pyLower sel) "posted" = true then
          dictSet md "date_posted" (some el.text)
        else md
      meta_from_sels page rest md

/-- Extraction from a fetched, parsed page (everything after the fetch and
`parsed = urlparse(url)` in the source). -/
def extract_from_page (page : Page) (url netloc : String) : Option Job :=
  let title := extract_title page
  let description := extract_description page
  if title = "" ∧ description = "" then none
  else
    some
      { job_title := if title = "" then "Untitled" else title,
        job_description := description,
        application_url := app_url_from_sels page url APPLY_SELECTORS,
        metadata := meta_from_sels page META_SELECTORS [("source_page", some url)],
        source_site := netloc,
        source_url := url }

/-- `extract_job_from_html(session, url)`.  `urlparse(url)` sits outside the
`try` block, so its exception escapes to the caller. -/
def extract_job_from_html (env : HtmlEnv) (url : String) : Except Unit (Option Job) :=
  match env url with
  | none => .ok none
  | some page =>
    match urlparse url with
    | .error e => .error e
    | .ok p => .ok (extract_from_page page url p.netloc)

/-! ## Listing expansion in `run_extraction` (step 2, listing branch) -/

/-- The hard-coded per-listing cap (`job_links[:100]`). -/
def LISTING_CAP : Nat := 100

/-- The per-link loop over the (already capped) detail links of one listing:
each link is fetched and extracted inside its own `try`, the card title
substitutes for a missing or `"Untitled"` title, and the record is admitted
via `add_job`; any exception makes the link contribute nothing. -/
def listing_step (env : HtmlEnv) (st : ExtractState) (job_url card_title : String) :
    ExtractState :=
  match extract_job_from_html env job_url with
  | .error _ => st
  | .ok none => st
  | .ok (some job) =>
    let job :=
      if job.job_title = "" ∨ job.job_title = "Untitled" then
        { job with job_title := card_title }
      else job
    match add_job st job with
    | .ok s => s
    | .error _ => st

def process_listing (env : HtmlEnv) (st : ExtractState) :
    List (String × String) → ExtractState
  | [] => st
  | (job_url, card_title) :: rest =>
    process_listing env (listing_step env st job_url card_title) rest

/-- The listing branch of `run_extraction`: the discovered links are capped
at `LISTING_CAP` before expansion; with no links the listing page itself is
extracted as a single entry. -/
def listing_branch (env : HtmlEnv) (st : ExtractState)
    (job_links : List (String × String)) (url : String) : ExtractState :=
  if job_links ≠ [] then process_listing env st (job_links.take LISTING_CAP)
  else
    match extract_job_from_html env url with
    | .ok (some job) =>
      match add_job st job with
      | .ok s => s
      | .error _ => st
    | _ => st

/-! ## Link loading (`load_links_from_file`) -/

/-- `load_links_from_file(path)`: the file is `none` when the path does not
exist, otherwise its list of raw lines. -/
def load_links_from_file (file : Option (List String)) : List String :=
  match file with
  | none => []
  | some lines =>
    lines.foldl
      (fun urls line =>
        let line := pyStrip line
        if line ≠ "" ∧ ¬ pyStartsWith line "#" = true ∧
            (pyStartsWith line "http://" = true ∨ pyStartsWith line "https://" = true) then
          urls ++ [line]
        else urls)
      []

/-! ## Spec-side shape predicates (for the classifier characterisations)

These restate, as flat predicates, what the amended claims say about the
classifiers; the theorems below compare them with the source-derived
functions. -/

/-- Amended hub shape: the normalised path is a root/career entry point, or
mentions `/careers/` or `/jobs/` with at most two nonempty segments. -/
def HubShape (path : String) : Prop :=
  (normPath path = "" ∨ normPath path = "/" ∨
   normPath path = "/careers" ∨ normPath path = "/jobs") ∨
  ((strContains (normPath path) "/careers/" = true ∨
    strContains (normPath path) "/jobs/" = true) ∧ segCount (normPath path) ≤ 2)

instance (path : String) : Decidable (HubShape path) := by
  unfold HubShape; infer_instance

/-- Amended listing shape: the `searchjobs`-without-`/jobdetail` rule, the
short-path careers/jobs rule, or a path ending in `/careers` or `/jobs`;
the query never enters the decision. -/
def ListingShape (path : String) : Prop :=
  normPath path ≠ "" ∧
  ((strContains (normPath path) "searchjobs" = true ∧
      ¬ strContains (normPath path) "/jobdetail" = true) ∨
   (segCount (normPath path) ≤ 2 ∧
      (strContains (normPath path) "careers" = true ∨
       strContains (normPath path) "jobs" = true)) ∨
   (pyEndsWith (normPath path) "/careers" || pyEndsWith (normPath path) "/jobs") = true)

instance (path : String) : Decidable (ListingShape path) := by
  unfold ListingShape; infer_instance

/-- The text left behind by the description loop when no candidate broke it:
the last matching selector's text. -/
def lastMatchText (page : Page) (sels : List String) : String :=
  sels.foldl
    (fun acc s => match page.selOne s with | some e => e.text | none => acc) ""

/-! ## Concrete fixtures used by counterexamples and witnesses -/

/-- A stored first-seen record. -/
def exJobA : Job :=
  { job_title := "Engineer",
    job_description := "Short desc",
    application_url := "https://acme.avature.net/careers/JobDetail/9",
    metadata := [("location", some "NYC")],
    source_site := "acme.avature.net",
    source_url := "https://acme.avature.net/careers" }

/-- A corpus already holding `exJobA`. -/
def exStA : ExtractState :=
  { all_jobs := [exJobA],
    seen_keys := [("acme.avature.net", "https://acme.avature.net/careers/JobDetail/9")] }

/-- A repeat observation of the same identity with a strictly longer
description and fresh metadata. -/
def exJobB : Job :=
  { exJobA with
    job_description := "A much longer and richer description of this job",
    metadata := [("location", some "NYC"), ("date_posted", some "2024-01-01")] }

/-- A feed item that passes the admission filter. -/
def ceItem : FeedItem :=
  { title := "Engineer", link := "https://acme.avature.net/careers/JobDetail/5",
    description := "Great job", pubDate := "", guid := "" }

/-- A network where the first feed path answers 200 with a well-formed but
empty feed, and the second answers 200 with one admissible item. -/
def ceRssEnv : RssEnv := fun url =>
  if url = "https://acme.avature.net/rss" then .resp 200 (.feed [])
  else if url = "https://acme.avature.net/careers/rss" then .resp 200 (.feed [ceItem])
  else .netError

/-- The record `fetch_rss_jobs` builds from `ceItem` at the second path. -/
def ceRssJob : Job :=
  { job_title := "Engineer",
    job_description := "Great job",
    application_url := "https://acme.avature.net/careers/JobDetail/5",
    metadata := [("date_posted", none), ("job_id", none),
                 ("source_feed", some "https://acme.avature.net/careers/rss")],
    source_site := "acme.avature.net",
    source_url := "https://acme.avature.net/careers/rss" }

/-- A matching description container whose text is nonempty but below the
100-character threshold. -/
def ceShortElem : Elem := { text := "Apply now", href := none, classStr := "" }

/-- A page body whose text differs from the container text. -/
def ceBodyElem : Elem :=
  { text := "Body text of the whole page, clearly not the container text.",
    href := none, classStr := "" }

/-- A page where only `.job-description` matches, with short nonempty text. -/
def ceDescPage : Page :=
  { selOne := fun s => if s = ".job-description" then some ceShortElem else none,
    titleAttr := some "Engineer", bodyEl := some ceBodyElem }

/-- A description container exceeding the 100-character threshold. -/
def wLongElem : Elem :=
  { text := String.mk (List.replicate 150 'a'), href := none, classStr := "" }

/-- A page whose `.job-description` text qualifies. -/
def wDescPage : Page :=
  { selOne := fun s => if s = ".job-description" then some wLongElem else none,
    titleAttr := none, bodyEl := none }

/-- A page with no matching selector, no title tag and no body. -/
def emptyPage : Page :=
  { selOne := fun _ => none, titleAttr := none, bodyEl := none }

/-- Whether a computation returned normally (no exception). -/
def exceptOk {α : Type} : Except Unit α → Bool
  | .ok _ => true
  | .error _ => false

/-! ## Helper lemmas -/

theorem mem_of_takeWhile {α : Type} {p : α → Bool} {l : List α} {a : α}
    (h : a ∈ l.takeWhile p) : a ∈ l := by
  induction l with
  | nil => simpa using h
  | cons b t ih =>
    by_cases hb : p b = true
    · simp only [List.takeWhile, hb] at h
      rcases List.mem_cons.mp h with h | h
      · simp [h]
      · exact List.mem_cons_of_mem _ (ih h)
    · simp only [List.takeWhile] at h
      rw [Bool.not_eq_true] at hb
      simp [hb] at h

theorem mem_of_dropWhile {α : Type} {p : α → Bool} {l : List α} {a : α}
    (h : a ∈ l.dropWhile p) : a ∈ l := by
  induction l with
  | nil => simpa using h
  | cons b t ih =>
    by_cases hb : p b = true
    · simp only [List.dropWhile, hb] at h
      exact List.mem_cons_of_mem _ (ih h)
    · rw [Bool.not_eq_true] at hb
      simp only [List.dropWhile, hb] at h
      simpa using h

theorem mem_of_preprocessUrl {l : List Char} {c : Char}
    (h : c ∈ preprocessUrl l) : c ∈ l := by
  unfold preprocessUrl at h
  have h1 := (List.mem_filter.mp h).1
  have h2 := mem_of_dropWhile (List.mem_reverse.mp h1)
  exact mem_of_dropWhile (List.mem_reverse.mp h2)

theorem mem_splitScheme_snd {l : List Char} {c : Char}
    (h : c ∈ (splitScheme l).2) : c ∈ l := by
  unfold splitScheme at h
  split at h
  · split at h
    · exact List.mem_of_mem_drop h
    · exact h
  · exact h

theorem mem_netlocRest_fst {url : String} {c : Char}
    (h : c ∈ (netlocRest url).1) : c ∈ url.toList := by
  unfold netlocRest splitNetloc at h
  by_cases h2 : (schemeRest url).2.take 2 = ['/', '/']
  · rw [if_pos h2] at h
    have := List.mem_of_mem_drop (mem_of_takeWhile h)
    exact mem_of_preprocessUrl (mem_splitScheme_snd this)
  · rw [if_neg h2] at h
    simp at h

theorem urlparse_ok_of_no_brackets {url : String}
    (h1 : '[' ∉ url.toList) (h2 : ']' ∉ url.toList) :
    ∃ p, urlparse url = Except.ok p := by
  have hb : ¬ badBrackets (netlocRest url).1 := by
    rintro (⟨hm, _⟩ | ⟨hm, _⟩)
    · exact h1 (mem_netlocRest_fst hm)
    · exact h2 (mem_netlocRest_fst hm)
  unfold urlparse urlsplit
  rw [if_neg hb]
  exact ⟨_, rfl⟩

/-! ## C3: totality and determinism of the role classifiers -/

/-- C3 counterexample: the classifiers are not exception-free.  On the URL
`http://[` the underlying `urlparse` raises `ValueError` ("Invalid IPv6
URL"), and none of the three classifiers catches it, so none returns a
boolean — contradicting "returns a boolean without raising any exception". -/
theorem C3_counterexample :
    is_likely_career_hub "http://[" = Except.error () ∧
    is_likely_job_page "http://[" = Except.error () ∧
    is_listing_page "http://[" = Except.error () :=
  ⟨rfl, rfl, rfl⟩

/-- C3 (amended): the three classifiers are deterministic pure functions of
the URL string, and they return a boolean on every URL containing no square
bracket (the parser's `ValueError` needs an unbalanced bracket in the
authority); a scheme-less junk string such as `"notaurl"` classifies as none
of hub / job-page / listing, but inputs with an empty path — e.g. the empty
string — classify as hub. -/
theorem C3_classifier_amended :
    (∀ url : String, '[' ∉ url.toList → ']' ∉ url.toList →
      exceptOk (is_likely_career_hub url) = true ∧
      exceptOk (is_likely_job_page url) = true ∧
      exceptOk (is_listing_page url) = true) ∧
    is_likely_career_hub "notaurl" = Except.ok false ∧
    is_likely_job_page "notaurl" = Except.ok false ∧
    is_listing_page "notaurl" = Except.ok false ∧
    is_likely_career_hub "" = Except.ok true := by
  refine ⟨?_, rfl, rfl, rfl, rfl⟩
  intro url h1 h2
  obtain ⟨p, hp⟩ := urlparse_ok_of_no_brackets h1 h2
  refine ⟨?_, ?_, ?_⟩ <;>
    simp [is_likely_career_hub, is_likely_job_page, is_listing_page, hp,
      Except.map, exceptOk]

/-- C3 witness: the amended totality at a concrete bracket-free URL. -/
theorem C3_witness :
    exceptOk (is_likely_career_hub "https://x.com/a") = true ∧
    exceptOk (is_likely_job_page "https://x.com/a") = true ∧
    exceptOk (is_listing_page "https://x.com/a") = true :=
  C3_classifier_amended.1 "https://x.com/a" (by decide) (by decide)
/-! ## C5: the hub classifier -/

/-- C5 counterexample: `is_likely_career_hub` also accepts deeper paths.  The
URL `https://example.com/careers/x` has path `/careers/x` — none of empty,
`/`, `/careers`, `/jobs` — yet the classifier returns true (the source's
second rule accepts any path containing `/careers/` or `/jobs/` with at most
two nonempty segments). -/
theorem C5_counterexample :
    is_likely_career_hub "https://example.com/careers/x" = Except.ok true ∧
    urlparse "https://example.com/careers/x" =
      Except.ok ⟨"https", "example.com", "/careers/x", "", "", ""⟩ ∧
    ("/careers/x" ≠ "" ∧ "/careers/x" ≠ "/" ∧
     "/careers/x" ≠ "/careers" ∧ "/careers/x" ≠ "/jobs") :=
  ⟨rfl, rfl, by decide⟩

/-- C5 (amended): `is_likely_career_hub` returns true exactly when the
lowercased path with trailing slashes removed is empty, `/`, `/careers` or
`/jobs`, or contains `/careers/` or `/jobs/` as a substring while having at
most two nonempty segments. -/
theorem C5_hub_characterisation :
    ∀ url p, urlparse url = Except.ok p →
      (is_likely_career_hub url = Except.ok true ↔ HubShape p.path) := by
  intro url p hp
  simp only [is_likely_career_hub, hp, Except.map, Except.ok.injEq]
  unfold hub_core HubShape
  by_cases h1 : normPath p.path = "" ∨ normPath p.path = "/" ∨
      normPath p.path = "/careers" ∨ normPath p.path = "/jobs"
  · rw [if_pos h1]
    exact iff_of_true rfl (Or.inl h1)
  · rw [if_neg h1]
    by_cases h2 : strContains (normPath p.path) "/careers/" = true ∨
        strContains (normPath p.path) "/jobs/" = true
    · rw [if_pos h2, decide_eq_true_eq]
      constructor
      · exact fun hc => Or.inr ⟨h2, hc⟩
      · rintro (hc | ⟨_, hc⟩)
        · exact absurd hc h1
        · exact hc
    · rw [if_neg h2]
      refine iff_of_false (by simp) ?_
      rintro (hc | ⟨hb, _⟩)
      · exact h1 hc
      · exact h2 hb

/-- C5 witness: the amended characterisation applied at `/careers`. -/
theorem C5_witness :
    is_likely_career_hub "https://acme.avature.net/careers" = Except.ok true :=
  (C5_hub_characterisation "https://acme.avature.net/careers"
    ⟨"https", "acme.avature.net", "/careers", "", "", ""⟩ rfl).mpr (by decide)

/-! ## C4: detail markers versus listing classification -/

/-- C4 counterexample: a URL whose query carries an explicit job-id parameter
(`jobId=4821`) and whose path is listing-shaped is classified as a listing —
`is_listing_page` never reads the query, so a detail marker there does not
override the listing rules. -/
theorem C4_counterexample :
    is_listing_page "https://acme.avature.net/careers?jobId=4821" = Except.ok true ∧
    urlparse "https://acme.avature.net/careers?jobId=4821" =
      Except.ok ⟨"https", "acme.avature.net", "/careers", "", "jobId=4821", ""⟩ ∧
    strContains (pyLower "jobId=4821") "jobid" = true :=
  ⟨rfl, rfl, rfl⟩

/-- C4 (amended): the detail-marker override is confined to the `searchjobs`
rule — a path containing `searchjobs` is a listing only when `/jobdetail` is
absent; paths with at most two nonempty segments mentioning careers/jobs, or
ending in `/careers` or `/jobs`, are listings regardless of any detail
marker, and the query string is never consulted.  The spec's concrete
instances hold: `/careers/JobDetail/4821` is a job page and not a listing,
`/careers/SearchJobs` is a listing. -/
theorem C4_listing_characterisation :
    (∀ url p, urlparse url = Except.ok p →
      (is_listing_page url = Except.ok true ↔ ListingShape p.path)) ∧
    is_likely_job_page "https://acme.avature.net/careers/JobDetail/4821" = Except.ok true ∧
    is_listing_page "https://acme.avature.net/careers/JobDetail/4821" = Except.ok false ∧
    is_listing_page "https://acme.avature.net/careers/SearchJobs" = Except.ok true := by
  refine ⟨?_, rfl, rfl, rfl⟩
  intro url p hp
  simp only [is_listing_page, hp, Except.map, Except.ok.injEq]
  unfold listing_core ListingShape
  by_cases h0 : normPath p.path = ""
  · rw [if_pos h0]
    exact iff_of_false (by simp) (fun h => h.1 h0)
  · rw [if_neg h0]
    by_cases h1 : strContains (normPath p.path) "searchjobs" = true ∧
        ¬ strContains (normPath p.path) "/jobdetail" = true
    · rw [if_pos h1]
      exact iff_of_true rfl ⟨h0, Or.inl h1⟩
    · rw [if_neg h1]
      by_cases h2 : segCount (normPath p.path) ≤ 2 ∧
          (strContains (normPath p.path) "careers" = true ∨
           strContains (normPath p.path) "jobs" = true)
      · rw [if_pos h2]
        exact iff_of_true rfl ⟨h0, Or.inr (Or.inl h2)⟩
      · rw [if_neg h2]
        constructor
        · exact fun hb => ⟨h0, Or.inr (Or.inr hb)⟩
        · rintro ⟨_, (hd | hd | hd)⟩
          · exact absurd hd h1
          · exact absurd hd h2
          · exact hd

/-- C4 witness: the amended characterisation applied at a short careers
path. -/
theorem C4_witness :
    is_listing_page "https://acme.avature.net/en/careers" = Except.ok true :=
  (C4_listing_characterisation.1 "https://acme.avature.net/en/careers"
    ⟨"https", "acme.avature.net", "/en/careers", "", "", ""⟩ rfl).mpr (by decide)

/-! ## C2: the job-posting admission filter -/

/-- C2 counterexample: spec rule 4 ("tenant career subdomain AND any
career/job marker in the path → accept") is not what the code implements.
The non-job pattern blocklist runs for every host before the tenant rule, so
a tenant URL whose path mentions a career marker but also contains
`hr-trends` is rejected. -/
theorem C2_counterexample :
    is_likely_job_posting "https://acme.avature.net/careers/hr-trends" "Engineer" "feed" =
      Except.ok false ∧
    strContains (pyLower "acme.avature.net") ".avature.net" = true ∧
    pyLower "acme.avature.net" ≠ "www.avature.net" ∧
    pyLower "acme.avature.net" ≠ "avature.net" ∧
    strContains (pyLower "/careers/hr-trends") "careers" = true :=
  ⟨rfl, rfl, by decide, by decide, rfl⟩

/-- C2 (amended): a tenant career subdomain of the vendor with a career/job
marker in the path is accepted, provided neither the lowercased path nor the
lowercased title contains one of the non-job patterns (`/blogs/`, `/blog/`,
`avatureupfront`, `hr-trends`, `test-cookies`), which are checked first for
every host.  The spec's three concrete instances hold. -/
theorem C2_admission_amended :
    (∀ url t f p, urlparse url = Except.ok p →
      strContains (pyLower p.netloc) ".avature.net" = true →
      pyLower p.netloc ≠ "www.avature.net" →
      pyLower p.netloc ≠ "avature.net" →
      (strContains (pyLower p.path) "careers" = true ∨
       strContains (pyLower p.path) "jobs" = true) →
      (∀ pat ∈ RSS_NON_JOB_PATH_PATTERNS,
        strContains (pyLower p.path) pat = false ∧ strContains (pyLower t) pat = false) →
      is_likely_job_posting url t f = Except.ok true) ∧
    is_likely_job_posting "https://acme.avature.net/careers/JobDetail/123" "Engineer" "feed" =
      Except.ok true ∧
    is_likely_job_posting "https://www.avature.net/blogs/hr-trends" "HR Trends" "feed" =
      Except.ok false ∧
    is_likely_job_posting "" "Engineer" "feed" = Except.ok false := by
  refine ⟨?_, rfl, rfl, rfl⟩
  intro url t f p hup htenant hw ha hmarker hpats
  have hurl : ¬ url = "" := by
    intro h
    subst h
    rw [show urlparse "" = Except.ok ⟨"", "", "", "", "", ""⟩ from rfl] at hup
    cases hup
    exact absurd htenant (by decide)
  obtain ⟨hb1, hc1⟩ := hpats "/blogs/" (by simp [RSS_NON_JOB_PATH_PATTERNS])
  obtain ⟨hb2, hc2⟩ := hpats "/blog/" (by simp [RSS_NON_JOB_PATH_PATTERNS])
  obtain ⟨hb3, hc3⟩ := hpats "avatureupfront" (by simp [RSS_NON_JOB_PATH_PATTERNS])
  obtain ⟨hb4, hc4⟩ := hpats "hr-trends" (by simp [RSS_NON_JOB_PATH_PATTERNS])
  obtain ⟨hb5, hc5⟩ := hpats "test-cookies" (by simp [RSS_NON_JOB_PATH_PATTERNS])
  have hmkt : ¬ (pyLower p.netloc = "www.avature.net" ∨ pyLower p.netloc = "avature.net") := by
    rintro (h | h)
    · exact hw h
    · exact ha h
  have hany : RSS_NON_JOB_PATH_PATTERNS.any
      (fun pat => strContains (pyLower p.path) pat || strContains (pyLower t) pat) = false := by
    simp [RSS_NON_JOB_PATH_PATTERNS, hb1, hb2, hb3, hb4, hb5, hc1, hc2, hc3, hc4, hc5]
  have htrule : strContains (pyLower p.netloc) ".avature.net" = true ∧
      pyLower p.netloc ≠ "www.avature.net" ∧ pyLower p.netloc ≠ "avature.net" ∧
      (strContains (pyLower p.path) "/careers" = true ∨
       strContains (pyLower p.path) "/jobs" = true ∨
       strContains (pyLower p.path) "searchjobs" = true ∨
       strContains (pyLower p.path) "careers" = true ∨
       strContains (pyLower p.path) "jobs" = true) := by
    refine ⟨htenant, hw, ha, ?_⟩
    rcases hmarker with h | h
    · exact Or.inr (Or.inr (Or.inr (Or.inl h)))
    · exact Or.inr (Or.inr (Or.inr (Or.inr h)))
  simp only [is_likely_job_posting, hurl, if_neg, hup, Except.map]
  simp only [job_posting_core]
  have hnc1 : ¬((pyLower p.netloc = "www.avature.net" ∨ pyLower p.netloc = "avature.net") ∧
      (strContains (pyLower p.path) "/blogs/" = true ∨
       strContains (pyLower p.path) "/blog/" = true ∨
       strContains (pyLower p.path) "avatureupfront" = true ∨
       strContains (pyLower p.path) "hr-trends" = true)) :=
    fun h => hmkt h.1
  rw [if_neg hnc1, if_pos htrule]
  simp [hany]
  exact Or.inl ⟨fun h => hmkt (Or.inl h), fun h => hmkt (Or.inr h)⟩

/-- C2 witness: the amended tenant rule at a concrete clean URL. -/
theorem C2_witness :
    is_likely_job_posting "https://bloomberg.avature.net/careers/JobDetail/77"
      "Data Engineer" "feed" = Except.ok true :=
  C2_admission_amended.1 "https://bloomberg.avature.net/careers/JobDetail/77"
    "Data Engineer" "feed"
    ⟨"https", "bloomberg.avature.net", "/careers/JobDetail/77", "", "", ""⟩
    rfl rfl (by decide) (by decide) (Or.inl rfl) (by decide)

/-! ## C1: dedup identity, dropped repeats, and the enrichment merge -/

theorem pyLookup_append (A B : PyDict) (k : String) :
    pyLookup k (A ++ B) =
      match pyLookup k A with
      | some v => some v
      | none => pyLookup k B := by
  induction A with
  | nil => rfl
  | cons kv rest ih =>
    by_cases hk : kv.1 = k
    · simp [pyLookup, hk]
    · simp [pyLookup, hk, ih]

theorem pyLookup_map_upd (new : PyDict) (k : String) :
    ∀ old : PyDict,
      pyLookup k (old.map (fun kv =>
          match pyLookup kv.1 new with | some v => (kv.1, v) | none => kv)) =
        match pyLookup k old with
        | some v => (match pyLookup k new with | some w => some w | none => some v)
        | none => none := by
  intro old
  induction old with
  | nil => rfl
  | cons kv rest ih =>
    by_cases hk : kv.1 = k
    · subst hk
      cases hn : pyLookup kv.1 new <;> simp [pyLookup, hn]
    · cases hn : pyLookup kv.1 new <;> simp [pyLookup, hn, hk, ih]

theorem pyLookup_filter_unseen (old : PyDict) (k : String) :
    ∀ new : PyDict,
      pyLookup k (new.filter (fun kv => (pyLookup kv.1 old).isNone)) =
        match pyLookup k old with
        | some _ => none
        | none => pyLookup k new := by
  intro new
  induction new with
  | nil => cases pyLookup k old <;> rfl
  | cons kv rest ih =>
    by_cases hk : kv.1 = k
    · subst hk
      cases ho : pyLookup kv.1 old <;>
        simp [List.filter, pyLookup, ho, ih]
    · cases hf : (pyLookup kv.1 old).isNone <;>
        cases ho : pyLookup k old <;>
          simp [List.filter, pyLookup, hf, hk, ho, ih]

/-- The key-wise content of `{**old, **new}`: the newer value wins, older
values survive, nothing else appears. -/
theorem pyLookup_dictUpdate (old new : PyDict) (k : String) :
    pyLookup k (dictUpdate old new) =
      match pyLookup k new with
      | some v => some v
      | none => pyLookup k old := by
  unfold dictUpdate
  rw [pyLookup_append, pyLookup_map_upd, pyLookup_filter_unseen]
  cases ho : pyLookup k old <;> cases hn : pyLookup k new <;> simp

/-- `add_job` either raises, returns the state unchanged, or appends an
unseen record and registers its key. -/
theorem add_job_cases (st : ExtractState) (job : Job) :
    add_job st job = Except.error () ∨ add_job st job = Except.ok st ∨
      (jobKey job ∉ st.seen_keys ∧
       add_job st job = Except.ok
         { all_jobs := st.all_jobs ++ [job],
           seen_keys := st.seen_keys ++ [jobKey job] }) := by
  unfold add_job add_job_keyed
  split
  · exact Or.inr (Or.inl rfl)
  · split
    · rename_i e _
      cases e
      exact Or.inl rfl
    · split
      · exact Or.inr (Or.inl rfl)
      · exact Or.inr (Or.inr ⟨by assumption, rfl⟩)
    · split
      · rename_i e _
        cases e
        exact Or.inl rfl
      · split
        · exact Or.inr (Or.inl rfl)
        · split
          · exact Or.inr (Or.inl rfl)
          · exact Or.inr (Or.inr ⟨by assumption, rfl⟩)

theorem jobKey_merge_into (e job : Job) : jobKey (merge_into e job) = jobKey e := rfl

theorem update_first_map_key (key : String × String) (job : Job) :
    ∀ l : List Job, (update_first key job l).map jobKey = l.map jobKey := by
  intro l
  induction l with
  | nil => rfl
  | cons e rest ih =>
    unfold update_first
    by_cases he : jobKey e = key
    · rw [if_pos he]
      simp [jobKey_merge_into]
    · rw [if_neg he]
      simp [ih]

theorem add_job_inv (st : ExtractState) (job : Job) (st' : ExtractState)
    (hinv : StateInv st) (h : add_job st job = Except.ok st') : StateInv st' := by
  rcases add_job_cases st job with hc | hc | ⟨hmem, hc⟩
  · rw [hc] at h
    cases h
  · rw [hc] at h
    cases h
    exact hinv
  · rw [hc] at h
    cases h
    obtain ⟨hnd, hseen⟩ := hinv
    constructor
    · rw [List.map_append, List.nodup_append]
      refine ⟨hnd, by simp, ?_⟩
      intro a ha hb
      simp only [List.map_cons, List.map_nil, List.mem_singleton] at hb
      subst hb
      obtain ⟨j, hj, hk⟩ := List.mem_map.mp ha
      exact hmem (hk ▸ hseen j hj)
    · intro j hj
      rcases List.mem_append.mp hj with hj | hj
      · exact List.mem_append_left _ (hseen j hj)
      · rw [List.mem_singleton] at hj
        subst hj
        exact List.mem_append_right _ (List.mem_singleton_self _)

theorem update_first_mem (key : String × String) (job : Job) (l : List Job)
    (j : Job) (hj : j ∈ update_first key job l) : jobKey j ∈ l.map jobKey := by
  have hm := List.mem_map_of_mem jobKey hj
  rwa [update_first_map_key] at hm

theorem enrich_with_inv (st : ExtractState) (job : Job) (st' : ExtractState)
    (hinv : StateInv st) (h : enrich_with st job = Except.ok st') : StateInv st' := by
  unfold enrich_with at h
  split at h
  · split at h
    · cases h
      obtain ⟨hnd, hseen⟩ := hinv
      constructor
      · rw [update_first_map_key]
        exact hnd
      · intro j hj
        obtain ⟨e, he, hke⟩ := List.mem_map.mp (update_first_mem _ _ _ _ hj)
        exact hke ▸ hseen e he
    · exact add_job_inv _ _ _ hinv h
  · cases h
    exact hinv

/-- C1 counterexample: a repeat admission through `add_job` is dropped
entirely, not merged.  `exJobB` has the same dedup identity as the stored
`exJobA` and a strictly longer description, yet admission leaves the corpus
exactly as it was — the longer description is never incorporated, although
the claim requires the stored description to be replaced by it. -/
theorem C1_counterexample :
    add_job exStA exJobB = Except.ok exStA ∧
    jobKey exJobB = jobKey exJobA ∧
    exStA.all_jobs = [exJobA] ∧
    exJobA.job_description.length < exJobB.job_description.length ∧
    exJobA.job_description ≠ exJobB.job_description :=
  ⟨rfl, rfl, rfl, by decide, by decide⟩

/-- C1 (amended): `add_job` is idempotent insertion keyed by
`(source_site, application_url)` — a repeat identity is dropped wholly (the
state is returned unchanged; the only other possibility is the admission
filter's exception propagating).  The merge the spec describes happens only
in the RSS-enrichment phase: there a repeat identity updates the first stored
record with that key in place, where the description is replaced exactly when
the incoming one is nonempty and strictly longer, metadata becomes the
key-wise shallow union with the newer value winning, and every other field
is unchanged.  Both operations preserve at-most-one-record-per-identity. -/
theorem C1_dedup_merge_amended :
    (∀ st job, jobKey job ∈ st.seen_keys →
       add_job st job = Except.ok st ∨ add_job st job = Except.error ()) ∧
    (∀ st job, jobKey job ∈ st.seen_keys →
       (job.job_description ≠ "" ∨ job.metadata ≠ []) →
       enrich_with st job =
         Except.ok { st with all_jobs := update_first (jobKey job) job st.all_jobs }) ∧
    (∀ e job,
       (merge_into e job).job_title = e.job_title ∧
       (merge_into e job).application_url = e.application_url ∧
       (merge_into e job).source_site = e.source_site ∧
       (merge_into e job).source_url = e.source_url ∧
       (job.job_description ≠ "" →
         e.job_description.length < job.job_description.length →
         (merge_into e job).job_description = job.job_description) ∧
       (job.job_description.length ≤ e.job_description.length →
         (merge_into e job).job_description = e.job_description) ∧
       (job.metadata = [] → (merge_into e job).metadata = e.metadata) ∧
       (job.metadata ≠ [] → ∀ k,
         pyLookup k (merge_into e job).metadata =
           match pyLookup k job.metadata with
           | some v => some v
           | none => pyLookup k e.metadata)) ∧
    (∀ st job st', StateInv st → add_job st job = Except.ok st' → StateInv st') ∧
    (∀ st job st', StateInv st → enrich_with st job = Except.ok st' → StateInv st') := by
  refine ⟨?_, ?_, ?_, add_job_inv, enrich_with_inv⟩
  · intro st job hmem
    rcases add_job_cases st job with hc | hc | ⟨hnm, _⟩
    · exact Or.inr hc
    · exact Or.inl hc
    · exact absurd hmem hnm
  · intro st job hmem hne
    unfold enrich_with
    rw [if_pos hne, if_pos hmem]
  · intro e job
    refine ⟨rfl, rfl, rfl, rfl, ?_, ?_, ?_, ?_⟩
    · intro h1 h2
      simp only [merge_into]
      rw [if_pos ⟨h1, h2⟩]
    · intro hle
      simp only [merge_into]
      rw [if_neg (fun h => absurd hle (not_le.mpr h.2))]
    · intro hm
      simp only [merge_into]
      rw [if_neg (fun h => h hm)]
    · intro hm k
      simp only [merge_into]
      rw [if_pos hm, pyLookup_dictUpdate]

/-- C1 witness: the enrichment merge applied to the concrete corpus. -/
theorem C1_witness :
    enrich_with exStA exJobB =
      Except.ok { exStA with all_jobs := update_first (jobKey exJobB) exJobB exStA.all_jobs } :=
  C1_dedup_merge_amended.2.1 exStA exJobB (by decide) (by decide)

/-! ## C6: the feed-path loop of `fetch_rss_jobs` -/

theorem rss_loop_nil_of_unproductive (env : RssEnv) (scheme netloc origin : String) :
    ∀ paths : List String,
      (∀ path ∈ paths, ∀ items,
        env (urljoin origin path) = RssResp.resp 200 (XmlBody.feed items) →
        process_items scheme netloc (urljoin origin path) [] items = ([], false)) →
      rss_loop env scheme netloc origin paths [] = [] := by
  intro paths
  induction paths with
  | nil => intro _; rfl
  | cons path rest ih =>
    intro h
    have hrest : ∀ q ∈ rest, ∀ items,
        env (urljoin origin q) = RssResp.resp 200 (XmlBody.feed items) →
        process_items scheme netloc (urljoin origin q) [] items = ([], false) :=
      fun q hq => h q (List.mem_cons_of_mem _ hq)
    simp only [rss_loop]
    rcases henv : env (urljoin origin path) with _ | ⟨status, body⟩
    · exact ih hrest
    · by_cases hs : status = 200
      · subst hs
        cases body with
        | malformed => simpa using ih hrest
        | feed items =>
          have hp := h path (List.mem_cons_self _ _) items henv
          simp only [hp]
          simpa using ih hrest
      · simp only [if_pos hs]
        exact ih hrest

/-- C6 counterexample: the loop does not stop at the first path that responds
with success and parses as a well-formed feed.  In `ceRssEnv` the first
candidate `/rss` answers 200 with a well-formed (empty) feed, yet the next
candidate `/careers/rss` is still fetched and its job is returned — the
source breaks only on `if jobs:`, i.e. when at least one record was
collected. -/
theorem C6_counterexample :
    fetch_rss_jobs ceRssEnv "https://acme.avature.net/careers" = Except.ok [ceRssJob] ∧
    ceRssEnv "https://acme.avature.net/rss" = RssResp.resp 200 (XmlBody.feed []) ∧
    ceRssJob.source_url = "https://acme.avature.net/careers/rss" :=
  ⟨rfl, rfl, rfl⟩

/-- C6 (amended): the candidate paths are tried in the fixed order
`/rss, /careers/rss, /jobs/rss, /feed, /careers/feed, /jobs/feed` under the
origin, and the loop stops at the first path that responds 200, parses as a
well-formed feed, AND yields at least one admitted job without an
item-processing exception; a well-formed feed yielding no admitted job is
passed over like a failure.  Parse failures are non-fatal (the next path is
tried), and when no path yields anything the site produces the empty list
rather than an error. -/
theorem C6_rss_amended :
    (∀ (env : RssEnv) (scheme netloc origin path : String)
        (rest : List String) (jobs : List Job) (items : List FeedItem) (out : List Job),
       env (urljoin origin path) = RssResp.resp 200 (XmlBody.feed items) →
       process_items scheme netloc (urljoin origin path) jobs items = (out, false) →
       out ≠ [] →
       rss_loop env scheme netloc origin (path :: rest) jobs = out) ∧
    (∀ (env : RssEnv) (scheme netloc origin path : String)
        (rest : List String) (jobs : List Job),
       env (urljoin origin path) = RssResp.resp 200 XmlBody.malformed →
       rss_loop env scheme netloc origin (path :: rest) jobs =
         rss_loop env scheme netloc origin rest jobs) ∧
    (∀ (env : RssEnv) (base : String) (p : UrlParts), urlparse base = Except.ok p →
       (∀ path ∈ RSS_PATHS, ∀ items,
          env (urljoin (p.scheme ++ "://" ++ p.netloc) path) =
            RssResp.resp 200 (XmlBody.feed items) →
          process_items p.scheme p.netloc
            (urljoin (p.scheme ++ "://" ++ p.netloc) path) [] items = ([], false)) →
       fetch_rss_jobs env base = Except.ok []) := by
  refine ⟨?_, ?_, ?_⟩
  · intro env scheme netloc origin path rest jobs items out henv hproc hout
    simp only [rss_loop, henv, hproc]
    simp [hout]
  · intro env scheme netloc origin path rest jobs henv
    simp [rss_loop, henv]
  · intro env base p hup h
    unfold fetch_rss_jobs
    rw [hup]
    exact congrArg Except.ok
      (rss_loop_nil_of_unproductive env p.scheme p.netloc
        (p.scheme ++ "://" ++ p.netloc) RSS_PATHS h)

/-- C6 witness: a network with no feeds yields the empty list, not an
error. -/
theorem C6_witness :
    fetch_rss_jobs (fun _ => RssResp.netError) "https://acme.avature.net/careers" =
      Except.ok [] :=
  C6_rss_amended.2.2 (fun _ => RssResp.netError) "https://acme.avature.net/careers"
    ⟨"https", "acme.avature.net", "/careers", "", "", ""⟩ rfl
    (fun _ _ _ h => RssResp.noConfusion h)

/-! ## C7: the description selector chain -/

theorem desc_from_sels_first (page : Page) :
    ∀ (l1 : List String) (sel : String) (el : Elem) (l2 : List String) (acc : String),
      (∀ s ∈ l1, ∀ e, page.selOne s = some e → e.text.length ≤ 100) →
      page.selOne sel = some el → 100 < el.text.length →
      desc_from_sels page (l1 ++ sel :: l2) acc = el.text := by
  intro l1
  induction l1 with
  | nil =>
    intro sel el l2 acc _ hsel hlen
    simp only [List.nil_append, desc_from_sels, hsel]
    rw [if_pos hlen]
  | cons s l1 ih =>
    intro sel el l2 acc h hsel hlen
    simp only [List.cons_append, desc_from_sels]
    cases hs : page.selOne s with
    | none =>
      exact ih sel el l2 acc (fun q hq => h q (List.mem_cons_of_mem _ hq)) hsel hlen
    | some e =>
      dsimp only
      rw [if_neg (not_lt.mpr (h s (List.mem_cons_self _ _) e hs))]
      exact ih sel el l2 e.text (fun q hq => h q (List.mem_cons_of_mem _ hq)) hsel hlen

theorem desc_from_sels_no_qualifier (page : Page) :
    ∀ (sels : List String) (acc : String),
      (∀ s ∈ sels, ∀ e, page.selOne s = some e → e.text.length ≤ 100) →
      desc_from_sels page sels acc =
        sels.foldl (fun a s => match page.selOne s with | some e => e.text | none => a) acc := by
  intro sels
  induction sels with
  | nil => intro acc _; rfl
  | cons s rest ih =>
    intro acc h
    simp only [desc_from_sels, List.foldl_cons]
    cases hs : page.selOne s with
    | none =>
      simp only [hs]
      exact ih acc (fun q hq => h q (List.mem_cons_of_mem _ hq))
    | some e =>
      simp only [hs]
      rw [if_neg (not_lt.mpr (h s (List.mem_cons_self _ _) e hs))]
      exact ih e.text (fun q hq => h q (List.mem_cons_of_mem _ hq))

/-- C7 counterexample: on `ceDescPage` no selector's candidate exceeds the
100-character threshold (the only match is the 9-character "Apply now"), yet
the description is that short text and NOT the body-text fallback — the
body fallback fires only when the loop's final candidate is empty. -/
theorem C7_counterexample :
    extract_description ceDescPage = "Apply now" ∧
    (DESC_SELECTORS.all fun s =>
      match ceDescPage.selOne s with
      | some e => decide (e.text.length ≤ 100)
      | none => true) = true ∧
    bodyFallback ceDescPage ≠ "" ∧
    extract_description ceDescPage ≠ bodyFallback ceDescPage :=
  ⟨rfl, rfl, by decide, by decide⟩

/-- C7 (amended): the first selector whose candidate text exceeds the
100-character threshold supplies the description; when no candidate
qualifies, the description is the last matching selector's text, and only
when that is empty (every match was empty, or nothing matched) does the
body-text fallback, truncated to 15000 characters, apply. -/
theorem C7_description_amended :
    (∀ (page : Page) (l1 : List String) (sel : String) (el : Elem) (l2 : List String),
       DESC_SELECTORS = l1 ++ sel :: l2 →
       (∀ s ∈ l1, ∀ e, page.selOne s = some e → e.text.length ≤ 100) →
       page.selOne sel = some el → 100 < el.text.length →
       extract_description page = el.text) ∧
    (∀ page : Page,
       (∀ s ∈ DESC_SELECTORS, ∀ e, page.selOne s = some e → e.text.length ≤ 100) →
       extract_description page =
         (if lastMatchText page DESC_SELECTORS = "" then bodyFallback page
          else lastMatchText page DESC_SELECTORS)) := by
  constructor
  · intro page l1 sel el l2 hsplit h hsel hlen
    have hne : el.text ≠ "" := by
      intro h0
      rw [h0] at hlen
      exact absurd hlen (by decide)
    unfold extract_description
    rw [hsplit, desc_from_sels_first page l1 sel el l2 "" h hsel hlen, if_neg hne]
  · intro page h
    unfold extract_description lastMatchText
    rw [desc_from_sels_no_qualifier page DESC_SELECTORS "" h]

set_option maxRecDepth 4000 in
/-- C7 witness: a qualifying first selector supplies the description. -/
theorem C7_witness :
    extract_description wDescPage = String.mk (List.replicate 150 'a') :=
  C7_description_amended.1 wDescPage [] ".job-description" wLongElem
    [".job-description .content", ".description", ".job-details", "article",
     ".job-content", ".position-description", "[data-job-description]",
     "main .content", "main", ".content"]
    rfl (fun s hs => absurd hs (List.not_mem_nil s)) rfl (by decide)

/-! ## C8: the minimum-content rule of `extract_job_from_html` -/

/-- C8 (confirmed): when a fetched page yields neither a nonempty title (after
all heading selectors and the title-tag fallback) nor a nonempty description
(after all container selectors and the body fallback), extraction returns
nothing — and conversely, every record it does return carries the extracted
title/description, so no empty-shell record is ever emitted. -/
theorem C8_minimum_content :
    ∀ (env : HtmlEnv) (url : String) (page : Page) (p : UrlParts),
      env url = some page → urlparse url = Except.ok p →
      (extract_job_from_html env url = Except.ok none ↔
        (extract_title page = "" ∧ extract_description page = "")) ∧
      (∀ j, extract_job_from_html env url = Except.ok (some j) →
        (¬ extract_title page = "" ∨ ¬ extract_description page = "") ∧
        j.job_title = (if extract_title page = "" then "Untitled" else extract_title page) ∧
        j.job_description = extract_description page) := by
  intro env url page p henv hup
  have hrw : extract_job_from_html env url =
      Except.ok (extract_from_page page url p.netloc) := by
    unfold extract_job_from_html
    rw [henv, hup]
  constructor
  · rw [hrw]
    unfold extract_from_page
    by_cases hc : extract_title page = "" ∧ extract_description page = ""
    · rw [if_pos hc]
      simp [hc]
    · rw [if_neg hc]
      simp [hc]
  · intro j hj
    rw [hrw] at hj
    unfold extract_from_page at hj
    by_cases hc : extract_title page = "" ∧ extract_description page = ""
    · rw [if_pos hc] at hj
      simp at hj
    · rw [if_neg hc] at hj
      simp only [Except.ok.injEq, Option.some.injEq] at hj
      subst hj
      exact ⟨not_and_or.mp hc, rfl, rfl⟩

/-- C8 witness: a shell page with no title and no body yields no record. -/
theorem C8_witness :
    extract_job_from_html (fun _ => some emptyPage) "https://a.com/x" = Except.ok none :=
  ((C8_minimum_content (fun _ => some emptyPage) "https://a.com/x" emptyPage
    ⟨"https", "a.com", "/x", "", "", ""⟩ rfl rfl).1).mpr ⟨rfl, rfl⟩

/-! ## C9: the per-listing expansion cap -/

theorem add_job_len (st : ExtractState) (job : Job) (st' : ExtractState)
    (h : add_job st job = Except.ok st') :
    st'.all_jobs.length ≤ st.all_jobs.length + 1 := by
  rcases add_job_cases st job with hc | hc | ⟨_, hc⟩ <;> rw [hc] at h
  · cases h
  · cases h
    exact Nat.le_add_right _ _
  · cases h
    simp

theorem listing_step_len (env : HtmlEnv) (st : ExtractState) (job_url card_title : String) :
    (listing_step env st job_url card_title).all_jobs.length ≤ st.all_jobs.length + 1 := by
  unfold listing_step
  split
  · exact Nat.le_add_right _ _
  · exact Nat.le_add_right _ _
  · dsimp only
    split
    · next s heq => exact add_job_len st _ s heq
    · exact Nat.le_add_right _ _

theorem process_listing_len (env : HtmlEnv) :
    ∀ (ls : List (String × String)) (st : ExtractState),
      (process_listing env st ls).all_jobs.length ≤ st.all_jobs.length + ls.length := by
  intro ls
  induction ls with
  | nil => intro st; simp [process_listing]
  | cons pr rest ih =>
    obtain ⟨job_url, card_title⟩ := pr
    intro st
    simp only [process_listing, List.length_cons]
    have h1 := ih (listing_step env st job_url card_title)
    have h2 := listing_step_len env st job_url card_title
    omega

/-- C9 (confirmed): one listing page expands at most `LISTING_CAP = 100`
detail links — the corpus grows by at most the cap per listing, whatever the
page, the network, and the number of qualifying links discovered; a listing
with 500 qualifying links is truncated to exactly 100 before any fetch. -/
theorem C9_listing_cap :
    ∀ (env : HtmlEnv) (st : ExtractState) (job_links : List (String × String)) (url : String),
      (listing_branch env st job_links url).all_jobs.length ≤
        st.all_jobs.length + LISTING_CAP ∧
      (job_links.take LISTING_CAP).length ≤ LISTING_CAP ∧
      (job_links.length = 500 →
        (job_links.take LISTING_CAP).length = 100 ∧ LISTING_CAP < 500) := by
  intro env st job_links url
  refine ⟨?_, ?_, ?_⟩
  · unfold listing_branch
    split
    · have h1 := process_listing_len env (job_links.take LISTING_CAP) st
      have h2 : (job_links.take LISTING_CAP).length ≤ LISTING_CAP := by
        rw [List.length_take]
        exact Nat.min_le_left _ _
      omega
    · split
      · next job heq =>
        split
        · next s hadd =>
          have h1 := add_job_len st job s hadd
          have hcap : (1 : Nat) ≤ LISTING_CAP := by decide
          omega
        · exact Nat.le_add_right _ _
      · exact Nat.le_add_right _ _
  · rw [List.length_take]
    exact Nat.min_le_left _ _
  · intro h500
    rw [List.length_take, h500]
    exact ⟨by decide, by decide⟩

/-- C9 witness: a 500-link listing over a dead network stays within the
cap. -/
theorem C9_witness :
    (listing_branch (fun _ => none) ⟨[], []⟩
        (List.replicate 500 ("https://a.com/j", "J")) "https://a.com/l").all_jobs.length ≤
      (⟨[], []⟩ : ExtractState).all_jobs.length + LISTING_CAP ∧
    ((List.replicate 500 (("https://a.com/j", "J") : String × String)).take LISTING_CAP).length
      = 100 :=
  ⟨(C9_listing_cap (fun _ => none) ⟨[], []⟩
      (List.replicate 500 ("https://a.com/j", "J")) "https://a.com/l").1,
   ((C9_listing_cap (fun _ => none) ⟨[], []⟩
      (List.replicate 500 ("https://a.com/j", "J")) "https://a.com/l").2.2
      (by rw [List.length_replicate])).1⟩

/-! ## C10: `load_links_from_file` -/

theorem http_facts {l : String}
    (h : pyStartsWith l "http://" = true ∨ pyStartsWith l "https://" = true) :
    ¬ l = "" ∧ pyStartsWith l "#" = false := by
  unfold pyStartsWith at h ⊢
  cases hl : l.toList with
  | nil =>
    rw [hl] at h
    rcases h with h | h <;> exact absurd h (by decide)
  | cons a t =>
    rw [hl] at h
    have ha : a = 'h' := by
      rcases h with h | h <;>
      · simp only [List.isPrefixOf, Bool.and_eq_true, beq_iff_eq] at h
        exact h.1.symm
    subst ha
    constructor
    · intro he
      rw [he] at hl
      simp at hl
    · rfl

/-- C10 (confirmed): `load_links_from_file` returns exactly the stripped
lines beginning with `http://` or `https://` — the blank-line and
comment-line guards are subsumed by the scheme check, every other line is
silently dropped, and a missing file yields the empty list. -/
theorem C10_load_links :
    load_links_from_file none = [] ∧
    ∀ lines, load_links_from_file (some lines) =
      (lines.map pyStrip).filter
        (fun l => pyStartsWith l "http://" || pyStartsWith l "https://") := by
  constructor
  · rfl
  · intro lines
    unfold load_links_from_file
    suffices h : ∀ (ls : List String) (acc : List String),
        ls.foldl
          (fun urls line =>
            let line := pyStrip line
            if line ≠ "" ∧ ¬ pyStartsWith line "#" = true ∧
                (pyStartsWith line "http://" = true ∨ pyStartsWith line "https://" = true) then
              urls ++ [line]
            else urls) acc =
          acc ++ (ls.map pyStrip).filter
            (fun l => pyStartsWith l "http://" || pyStartsWith l "https://") by
      simpa using h lines []
    intro ls
    induction ls with
    | nil => intro acc; simp
    | cons line rest ih =>
      intro acc
      simp only [List.foldl_cons, List.map_cons]
      by_cases hl : pyStartsWith (pyStrip line) "http://" = true ∨
          pyStartsWith (pyStrip line) "https://" = true
      · have hfacts := http_facts hl
        have hcond : pyStrip line ≠ "" ∧ ¬ pyStartsWith (pyStrip line) "#" = true ∧
            (pyStartsWith (pyStrip line) "http://" = true ∨
             pyStartsWith (pyStrip line) "https://" = true) :=
          ⟨hfacts.1, by simp [hfacts.2], hl⟩
        rw [if_pos hcond, List.filter_cons_of_pos (by simpa using hl), ih]
        simp
      · have hcond : ¬ (pyStrip line ≠ "" ∧ ¬ pyStartsWith (pyStrip line) "#" = true ∧
            (pyStartsWith (pyStrip line) "http://" = true ∨
             pyStartsWith (pyStrip line) "https://" = true)) :=
          fun c => hl c.2.2
        rw [if_neg hcond, List.filter_cons_of_neg (by simpa using hl), ih]
